import Mathlib

/-!
Shallow embedding of the MineContext-lite capture→dedup→embed→index→retrieve
pipeline, translated from the repository sources:

* `backend/utils/image_utils.py` — perceptual-hash helpers
  (`calculate_hash_difference`, `are_images_similar`).
* `backend/capture.py` — `CaptureService._capture_screenshot` (one scheduled
  capture cycle) and `CaptureService.capture_now` (manual capture).
* `backend/database.py` — `Database.find_duplicate_hash`,
  `Database.cleanup_old_screenshots`.
* `backend/vector_store.py` — `VectorStore.search_similar`.
* `backend/utils/embedding_utils.py` — `EmbeddingService.generate_embeddings_batch`,
  `EmbeddingService.compute_similarity`.
* `todolist/backend/services/activity_matcher.py` — `ActivityMatcher.cosine_similarity`,
  `ActivityMatcher.match_screenshot_to_todos`, `ActivityMatcher.classify_activity_type`.
* `backend/services/context_resurfacing.py` —
  `ContextResurfacingService._apply_relevance_decay`.

Machine- and IO-level aspects (actual screen grabs, SQLite, the filesystem,
threading) are modelled by explicit state passing: the relational store is a
list of rows, a capture cycle is a function from state to state plus an
outcome, and "the file was deleted / no row was created" is read off the
outcome and the returned state.
-/

namespace MineContext

/-! ### A stable descending sort

Python's `list.sort(key=..., reverse=True)` and `sorted(..., reverse=True)`
are stable sorts in descending key order.  SQLite's `ORDER BY ts DESC` is
modelled by the same function (for rows with pairwise-distinct keys the order
is uniquely determined, which is the only situation the theorems below rely
on).  Insertion keeps an element *before* every element of equal key, which
is exactly stability: earlier input positions win ties. -/

def insertDesc {α : Type} {β : Type} [LinearOrder β] (key : α → β) (x : α) :
    List α → List α
  | [] => [x]
  | y :: ys => if key y ≤ key x then x :: y :: ys else y :: insertDesc key x ys

def sortDesc {α : Type} {β : Type} [LinearOrder β] (key : α → β) :
    List α → List α
  | [] => []
  | x :: xs => insertDesc key x (sortDesc key xs)

theorem insertDesc_perm {α β : Type} [LinearOrder β] (key : α → β) (x : α)
    (l : List α) : List.Perm (insertDesc key x l) (x :: l) := by
  induction l with
  | nil => simp [insertDesc]
  | cons y ys ih =>
      by_cases h : key y ≤ key x
      · simp [insertDesc, h]
      · simp only [insertDesc, if_neg h]
        exact (ih.cons y).trans (List.Perm.swap x y ys)

theorem sortDesc_perm {α β : Type} [LinearOrder β] (key : α → β)
    (l : List α) : List.Perm (sortDesc key l) l := by
  induction l with
  | nil => simp [sortDesc]
  | cons x xs ih =>
      exact (insertDesc_perm key x (sortDesc key xs)).trans (ih.cons x)

theorem insertDesc_pairwise {α β : Type} [LinearOrder β] (key : α → β) (x : α)
    (l : List α) (h : l.Pairwise (fun a b => key b ≤ key a)) :
    (insertDesc key x l).Pairwise (fun a b => key b ≤ key a) := by
  induction l with
  | nil => simp [insertDesc]
  | cons y ys ih =>
      rcases List.pairwise_cons.1 h with ⟨hy, hys⟩
      by_cases hxy : key y ≤ key x
      · simp only [insertDesc, if_pos hxy]
        refine List.pairwise_cons.2 ⟨?_, h⟩
        intro b hb
        rcases List.mem_cons.1 hb with rfl | hb'
        · exact hxy
        · exact le_trans (hy b hb') hxy
      · simp only [insertDesc, if_neg hxy]
        refine List.pairwise_cons.2 ⟨?_, ih hys⟩
        intro b hb
        rcases List.mem_cons.1 ((insertDesc_perm key x ys).mem_iff.1 hb) with rfl | hb'
        · exact le_of_lt (lt_of_not_le hxy)
        · exact hy b hb'

theorem sortDesc_pairwise {α β : Type} [LinearOrder β] (key : α → β)
    (l : List α) : (sortDesc key l).Pairwise (fun a b => key b ≤ key a) := by
  induction l with
  | nil => simp [sortDesc]
  | cons x xs ih => exact insertDesc_pairwise key x (sortDesc key xs) ih

theorem sortDesc_mem {α β : Type} [LinearOrder β] (key : α → β) (l : List α)
    (x : α) : x ∈ sortDesc key l ↔ x ∈ l :=
  (sortDesc_perm key l).mem_iff

theorem sortDesc_length {α β : Type} [LinearOrder β] (key : α → β)
    (l : List α) : (sortDesc key l).length = l.length :=
  (sortDesc_perm key l).length_eq

/-- Bounded perfect-square test that the kernel can evaluate (models
`hash_size = int(sqrt(4*len)); hash_size * hash_size == 4*len`). -/
def isPerfectSquare (n : ℕ) : Bool :=
  (List.range (n + 1)).any (fun k => k * k == n)

/-! ### Perceptual-hash utilities (`backend/utils/image_utils.py`)

`calculate_perceptual_hash` returns the hex string of a 64-bit average hash
(or `""` on failure).  `calculate_hash_difference` parses both hex strings
with `imagehash.hex_to_hash` and returns the Hamming distance of the bit
arrays; any parse failure, non-square bit count, or shape mismatch raises
and is caught, returning the sentinel `999`.  The model parses canonical hex
digit strings (the only format `calculate_perceptual_hash` produces). -/

def hexCharToBits (c : Char) : Option (List Bool) :=
  let val? : Option ℕ :=
    if '0' ≤ c ∧ c ≤ '9' then some (c.toNat - '0'.toNat)
    else if 'a' ≤ c ∧ c ≤ 'f' then some (c.toNat - 'a'.toNat + 10)
    else if 'A' ≤ c ∧ c ≤ 'F' then some (c.toNat - 'A'.toNat + 10)
    else none
  val?.map (fun v => [v / 8 % 2 == 1, v / 4 % 2 == 1, v / 2 % 2 == 1, v % 2 == 1])

/-- Parse a perceptual-hash hex string into its bit string, `none` when the
string is empty, contains a non-hex character, or its bit count is not a
perfect square (`imagehash.hex_to_hash` requires a square bit array). -/
def parseHash (s : String) : Option (List Bool) :=
  if s.data = [] then none
  else if !isPerfectSquare (4 * s.data.length) then none
  else (s.data.mapM hexCharToBits).map List.flatten

/-- Hamming distance between two bit strings: the number of positions where
they differ. -/
def hammingDist (b1 b2 : List Bool) : ℕ :=
  (List.zipWith (fun x y => x != y) b1 b2).countP id

def calculate_hash_difference (hash1 hash2 : String) : ℕ :=
  match parseHash hash1, parseHash hash2 with
  | some b1, some b2 =>
      if b1.length = b2.length then hammingDist b1 b2 else 999
  | _, _ => 999

/-- Similarity check from `are_images_similar`: empty hashes are never
similar; otherwise the Hamming distance is compared with the effective
(config-resolved) threshold. -/
def are_images_similar (threshold : ℕ) (hash1 hash2 : String) : Bool :=
  if hash1 = "" ∨ hash2 = "" then false
  else calculate_hash_difference hash1 hash2 ≤ threshold

/-! ### Relational store rows and queries (`backend/database.py`) -/

/-- A screenshot row; timestamps are modelled as natural numbers (larger =
more recent). -/
structure Row where
  id : ℕ
  image_hash : String
  timestamp : ℕ
  deriving DecidableEq, Repr

/-- `Database.find_duplicate_hash`: `SELECT * FROM screenshots WHERE
image_hash = ? ORDER BY timestamp DESC LIMIT 1` — an *exact-match* lookup,
returning the most recent row with that hash. -/
def find_duplicate_hash (db : List Row) (image_hash : String) : Option Row :=
  (sortDesc (fun r => r.timestamp) db).find? (fun r => r.image_hash = image_hash)

/-- `Database.cleanup_old_screenshots`: select ids beyond the first
`max_count` in `timestamp DESC` order, delete them, return the deleted
count together with the remaining rows. -/
def cleanup_old_screenshots (max_count : ℕ) (db : List Row) :
    ℕ × List Row :=
  let ids_to_delete :=
    ((sortDesc (fun r => r.timestamp) db).drop max_count).map Row.id
  (ids_to_delete.length, db.filter (fun r => r.id ∉ ids_to_delete))

/-! ### The capture service (`backend/capture.py`) -/

/-- The configuration fields of `settings.capture` that the cycle reads. -/
structure CaptureSettings where
  deduplicate : Bool
  hash_threshold : ℕ
  max_screenshots : ℕ
  deriving Repr

/-- The persistent and in-memory state a capture cycle touches: the
screenshot table, the autoincrement id counter, the service's in-memory
`last_hash` cache, its `screenshots_captured` counter and `is_running`
flag. -/
structure CaptureState where
  db : List Row
  next_id : ℕ
  last_hash : Option String
  screenshots_captured : ℕ
  is_running : Bool
  deriving Repr

/-- Outcome of one capture cycle: the freshly written file was deleted and
nothing persisted, or a row with the given id was created. -/
inductive CycleResult where
  | discarded
  | persisted (id : ℕ)
  deriving DecidableEq, Repr

/-- One scheduled capture cycle, `CaptureService._capture_screenshot`, after
the screenshot file has been written and its perceptual hash `image_hash`
computed (`now` is the row timestamp).  Dedup check 1 compares against the
in-memory `last_hash`; dedup check 2 is the exact-match database lookup; on
either hit the file is unlinked and the cycle aborts with no row and no
counter increment.  Otherwise a row is persisted, counters update, and
retention cleanup runs when the total exceeds `max_screenshots`. -/
def capture_screenshot (st : CaptureSettings) (now : ℕ)
    (s : CaptureState) (image_hash : String) : CaptureState × CycleResult :=
  let dupLast : Bool :=
    st.deduplicate &&
      (match s.last_hash with
       | some lh => are_images_similar st.hash_threshold image_hash lh
       | none => false)
  if dupLast then (s, .discarded)
  else
    let dupDb : Bool :=
      st.deduplicate && !(image_hash = "") &&
        (find_duplicate_hash s.db image_hash).isSome
    if dupDb then (s, .discarded)
    else
      let row : Row := ⟨s.next_id, image_hash, now⟩
      let db' := s.db ++ [row]
      let db'' :=
        if db'.length > st.max_screenshots then
          (cleanup_old_screenshots st.max_screenshots db').2
        else db'
      ({ db := db''
         next_id := s.next_id + 1
         last_hash := some image_hash
         screenshots_captured := s.screenshots_captured + 1
         is_running := s.is_running },
       .persisted row.id)

/-- Manual capture, `CaptureService.capture_now`, after the screenshot file
has been written and hashed: it persists unconditionally — no duplicate
check against `last_hash` or the database, no counter/`last_hash` update,
no retention cleanup — and returns the new row id. -/
def capture_now (s : CaptureState) (now : ℕ) (image_hash : String) :
    CaptureState × Option ℕ :=
  let row : Row := ⟨s.next_id, image_hash, now⟩
  ({ s with db := s.db ++ [row], next_id := s.next_id + 1 }, some row.id)

/-! ### Similarity search (`backend/vector_store.py`, `VectorStore.search_similar`)

The index query itself is external (ChromaDB); the model takes the raw
candidate list `(screenshot_id, L2 distance)` the index returns and performs
the post-processing of `search_similar`: Python's `top_k or default` /
`min_similarity or default` resolution (`0` and `None` are both falsy),
distance→similarity conversion `1 / (1 + d)`, threshold filter, stable
descending sort, truncation to `top_k`. -/

def pyOrNat (arg : Option ℕ) (dflt : ℕ) : ℕ :=
  match arg with
  | none => dflt
  | some k => if k = 0 then dflt else k

def pyOrRat (arg : Option ℚ) (dflt : ℚ) : ℚ :=
  match arg with
  | none => dflt
  | some q => if q = 0 then dflt else q

def distToSim (d : ℚ) : ℚ := 1 / (1 + d)

def search_similar (max_results_default : ℕ) (threshold_default : ℚ)
    (candidates : List (ℕ × ℚ)) (top_k : Option ℕ)
    (min_similarity : Option ℚ) : List (ℕ × ℚ) :=
  let k := pyOrNat top_k max_results_default
  let m := pyOrRat min_similarity threshold_default
  let scored := candidates.map (fun c => (c.1, distToSim c.2))
  let filtered := scored.filter (fun x => decide (m ≤ x.2))
  (sortDesc Prod.snd filtered).take k

/-! ### Batch embedding (`backend/utils/embedding_utils.py`,
`EmbeddingService.generate_embeddings_batch`)

The backend call `self.model.encode(valid_texts, ...)` is external; it is a
parameter `encode` returning `none` when it throws.  Python's
`text and text.strip()` is false exactly for empty or whitespace-only
strings. -/

def isBlank (s : String) : Bool := s.data.all Char.isWhitespace

def generate_embeddings_batch {α : Type} (available : Bool)
    (encode : List String → Option (List α)) (texts : List String) :
    List α × List ℕ :=
  if !available then ([], List.range texts.length)
  else
    let enum := texts.enum
    let failed0 := (enum.filter (fun p => isBlank p.2)).map Prod.fst
    let valid_texts := (enum.filter (fun p => !isBlank p.2)).map Prod.snd
    if valid_texts.isEmpty then ([], failed0)
    else
      match encode valid_texts with
      | some embs => (embs, failed0)
      | none => ([], List.range texts.length)

/-! ### Activity-type classification
(`todolist/backend/services/activity_matcher.py`,
`ActivityMatcher.classify_activity_type`) -/

def toLowerStr (s : String) : String := ⟨s.data.map Char.toLower⟩

/-- Substring test over character lists (Python's `kw in s`). -/
def listContainsSub (haystack needle : List Char) : Bool :=
  (List.range (haystack.length + 1)).any (fun i => needle.isPrefixOf (haystack.drop i))

def strContains (haystack needle : String) : Bool :=
  listContainsSub haystack.data needle.data

def codingKeywords : List String := ["code", "ide", "editor", "vscode", "vim", "编程", "代码"]

def videoKeywords : List String := ["youtube", "video", "play", "视频", "播放"]

def readingKeywords : List String := ["pdf", "doc", "article", "read", "阅读", "文档"]

def browsingKeywords : List String := ["browser", "chrome", "firefox", "search", "浏览", "搜索"]

def communicationKeywords : List String := ["chat", "mail", "slack", "聊天", "邮件"]

/-- Keyword classification exactly in the source's `if`/`elif` order:
coding, video, reading, browsing, communication, fallback general. -/
def classify_activity_type (description : String) : String :=
  if description = "" then "general"
  else
    let d := toLowerStr description
    if codingKeywords.any (fun kw => strContains d kw) then "coding"
    else if videoKeywords.any (fun kw => strContains d kw) then "video"
    else if readingKeywords.any (fun kw => strContains d kw) then "reading"
    else if browsingKeywords.any (fun kw => strContains d kw) then "browsing"
    else if communicationKeywords.any (fun kw => strContains d kw) then "communication"
    else "general"

/-! ### Cosine similarity and the activity matcher

Vectors are lists of reals; `np.linalg.norm` is the Euclidean norm and
`np.dot` of two 1-D arrays of different lengths raises, which both
`cosine_similarity` and `compute_similarity` catch, returning `0.0`. -/

noncomputable def dotp (v w : List ℝ) : ℝ := (List.zipWith (· * ·) v w).sum

noncomputable def norm2 (v : List ℝ) : ℝ := Real.sqrt (dotp v v)

/-- `ActivityMatcher.cosine_similarity`: raw cosine, zero norms give `0.0`,
and the result is forced into `[0,1]` by `max(0.0, min(1.0, similarity))`. -/
noncomputable def cosine_similarity (emb1 emb2 : List ℝ) : ℝ :=
  if emb1.length ≠ emb2.length then 0
  else if norm2 emb1 = 0 ∨ norm2 emb2 = 0 then 0
  else max 0 (min 1 (dotp emb1 emb2 / (norm2 emb1 * norm2 emb2)))

/-- `EmbeddingService.compute_similarity`: raw cosine, zero norms give
`0.0`, and the result is mapped into `[0,1]` by `(similarity + 1) / 2`. -/
noncomputable def compute_similarity (embedding1 embedding2 : List ℝ) : ℝ :=
  if embedding1.length ≠ embedding2.length then 0
  else if norm2 embedding1 = 0 ∨ norm2 embedding2 = 0 then 0
  else (dotp embedding1 embedding2 / (norm2 embedding1 * norm2 embedding2) + 1) / 2

/-- Spec-side definition, for refinement comparison only: true cosine
similarity of two vectors, `cos = ⟨v,w⟩ / (‖v‖·‖w‖)`. -/
noncomputable def specTrueCosine (v w : List ℝ) : ℝ :=
  dotp v w / (norm2 v * norm2 w)

/-- An active task as the matcher sees it: id plus optionally a stored
embedding (rows with `embedding IS NULL` are skipped). -/
structure Todo where
  id : ℕ
  embedding : Option (List ℝ)

/-- One entry of the list `ActivityMatcher.match_screenshot_to_todos`
returns. -/
structure TodoMatch where
  todo_id : ℕ
  confidence : ℝ
  method : String

/-- Loop body of `ActivityMatcher.match_screenshot_to_todos`: for one
active task, skip it when it has no stored embedding; otherwise compute
`cosine_similarity` and keep the task iff the similarity reaches the
threshold, with confidence = similarity and method `"semantic"`. -/
noncomputable def match_one (similarity_threshold : ℝ) (screenshot_emb : List ℝ)
    (todo : Todo) : Option TodoMatch :=
  match todo.embedding with
  | none => none
  | some todo_emb =>
      let similarity := cosine_similarity screenshot_emb todo_emb
      if similarity_threshold ≤ similarity then
        some ⟨todo.id, similarity, "semantic"⟩
      else none

/-- `ActivityMatcher.match_screenshot_to_todos`, after the screenshot's
embedding has been resolved: apply `match_one` to every active task and
sort the kept matches by confidence descending.  (`trigger_async_match`
then creates exactly one activity link per returned match.) -/
noncomputable def match_screenshot_to_todos (similarity_threshold : ℝ)
    (screenshot_emb : List ℝ) (active_todos : List Todo) : List TodoMatch :=
  sortDesc TodoMatch.confidence
    (active_todos.filterMap (match_one similarity_threshold screenshot_emb))

/-! ### Relevance decay (`backend/services/context_resurfacing.py`,
`ContextResurfacingService._apply_relevance_decay`)

A candidate's age is `(now - timestamp).days`, an integer number of whole
days; the model carries `age_seconds` (`none` for a missing or unparsable
timestamp, which the code skips, leaving the raw similarity). -/

structure SimilarShot where
  screenshot_id : ℕ
  similarity : ℝ
  age_seconds : Option ℕ

noncomputable def decay_factor (decay_days : ℕ) (age_seconds : ℕ) : ℝ :=
  Real.exp (-(((age_seconds / 86400 : ℕ) : ℝ) / (decay_days : ℝ)))

/-- Per-candidate decay step: multiply the similarity by the decay factor;
a candidate without a parsable timestamp is left unchanged. -/
noncomputable def decay_shot (decay_days : ℕ) (s : SimilarShot) : SimilarShot :=
  match s.age_seconds with
  | some a => { s with similarity := s.similarity * decay_factor decay_days a }
  | none => s

noncomputable def apply_relevance_decay (decay_days : ℕ)
    (screenshots : List SimilarShot) : List SimilarShot :=
  sortDesc SimilarShot.similarity (screenshots.map (decay_shot decay_days))

/-! ## Claims -/

/-- C10: a pair of hashes with at least one empty is never similar; a pair
with an unparsable member falls back to the sentinel difference `999`; and a
capture whose perceptual-hash computation failed (empty hash) is never
discarded as a duplicate — the cycle always persists it (for any threshold,
in particular any threshold below 999). -/
theorem C10_empty_hash_always_persisted :
    (∀ threshold h, are_images_similar threshold "" h = false ∧
        are_images_similar threshold h "" = false) ∧
    (∀ h1 h2, parseHash h1 = none ∨ parseHash h2 = none →
        calculate_hash_difference h1 h2 = 999) ∧
    (∀ st now s, capture_screenshot st now s "" =
        (({ db := if s.db.length + 1 > st.max_screenshots then
              (cleanup_old_screenshots st.max_screenshots (s.db ++ [⟨s.next_id, "", now⟩])).2
            else s.db ++ [⟨s.next_id, "", now⟩]
            next_id := s.next_id + 1
            last_hash := some ""
            screenshots_captured := s.screenshots_captured + 1
            is_running := s.is_running } : CaptureState),
         .persisted s.next_id)) := by
  refine ⟨?_, ?_, ?_⟩
  · intro threshold h
    constructor <;> simp [are_images_similar]
  · intro h1 h2 h
    rcases h with h | h
    · cases hp2 : parseHash h2 <;> simp [calculate_hash_difference, h, hp2]
    · cases hp1 : parseHash h1 <;> simp [calculate_hash_difference, h, hp1]
  · intro st now s
    cases hlh : s.last_hash <;>
      simp [capture_screenshot, are_images_similar, hlh]

/-- C10 witness: concrete instances of the three parts — empty-hash pairs
are dissimilar, an unparsable pair gives 999, and an empty-hash capture is
persisted (row created, counter incremented). -/
theorem C10_witness :
    are_images_similar 5 "" "0000000000000000" = false ∧
    calculate_hash_difference "zz" "0000000000000000" = 999 ∧
    (capture_screenshot ⟨true, 5, 100⟩ 20 ⟨[], 1, some "0000000000000000", 3, true⟩ "").2
      = .persisted 1 := by
  refine ⟨(C10_empty_hash_always_persisted.1 5 "0000000000000000").1,
    C10_empty_hash_always_persisted.2.1 "zz" "0000000000000000" (Or.inl (by decide)),
    ?_⟩
  rw [C10_empty_hash_always_persisted.2.2 ⟨true, 5, 100⟩ 20
    ⟨[], 1, some "0000000000000000", 3, true⟩]

/-- C1 counterexample: dedup enabled with Hamming threshold 5; the store
holds a row whose hash `0000000000000000` is within the threshold (distance
1) of the fresh capture's hash `0000000000000001`, the last accepted hash
is far away (`ffffffffffffffff`), and the cycle nonetheless persists the
capture: a row is created and the counter is incremented, because the
database check is an exact-match lookup, not a Hamming-threshold check. -/
theorem C1_counterexample :
    calculate_hash_difference "0000000000000001" "0000000000000000" = 1 ∧
    (capture_screenshot ⟨true, 5, 100⟩ 20
        ⟨[⟨1, "0000000000000000", 10⟩], 2, some "ffffffffffffffff", 1, true⟩
        "0000000000000001").2 = .persisted 2 ∧
    (capture_screenshot ⟨true, 5, 100⟩ 20
        ⟨[⟨1, "0000000000000000", 10⟩], 2, some "ffffffffffffffff", 1, true⟩
        "0000000000000001").1.screenshots_captured = 2 := by
  refine ⟨by decide, by decide, by decide⟩

/-- C1 (amended): with deduplication enabled, a fresh capture whose hash is
within the Hamming threshold of the previous accepted capture's hash, or
whose (nonempty) hash *exactly equals* a hash already stored, is discarded
before persistence: the cycle returns the state unchanged — no database
row, no counter increment — and reports the file deleted. -/
theorem C1_dedup_before_persistence (st : CaptureSettings) (now : ℕ)
    (s : CaptureState) (image_hash : String)
    (hded : st.deduplicate = true)
    (hdup : (∃ lh, s.last_hash = some lh ∧
              are_images_similar st.hash_threshold image_hash lh = true) ∨
            (image_hash ≠ "" ∧ (find_duplicate_hash s.db image_hash).isSome = true)) :
    capture_screenshot st now s image_hash = (s, .discarded) := by
  rcases hdup with ⟨lh, hlh, hsim⟩ | ⟨hne, hfind⟩
  · simp [capture_screenshot, hlh, hsim, hded]
  · by_cases hl : (st.deduplicate &&
        (match s.last_hash with
         | some lh => are_images_similar st.hash_threshold image_hash lh
         | none => false)) = true
    · simp [capture_screenshot, hl]
    · simp [capture_screenshot, hl, hded, hne, hfind]

/-- C1 witness: a capture at Hamming distance 1 ≤ 5 from the last accepted
hash is discarded with the state untouched. -/
theorem C1_witness :
    capture_screenshot ⟨true, 5, 100⟩ 20
        ⟨[], 1, some "0000000000000000", 3, true⟩ "0000000000000001" =
      (⟨[], 1, some "0000000000000000", 3, true⟩, .discarded) :=
  C1_dedup_before_persistence ⟨true, 5, 100⟩ 20
    ⟨[], 1, some "0000000000000000", 3, true⟩ "0000000000000001" rfl
    (Or.inl ⟨"0000000000000000", rfl, by decide⟩)

/-- C2 counterexample: with deduplication enabled, a manual capture whose
hash exactly equals both the last accepted hash and a stored hash — which
the scheduled cycle discards — is nonetheless persisted by `capture_now`,
which returns the new id: `capture_now` applies no duplicate check at
all. -/
theorem C2_counterexample :
    (capture_now ⟨[⟨1, "0000000000000000", 10⟩], 2, some "0000000000000000", 1, false⟩
        20 "0000000000000000").2 = some 2 ∧
    (capture_now ⟨[⟨1, "0000000000000000", 10⟩], 2, some "0000000000000000", 1, false⟩
        20 "0000000000000000").1.db =
      [⟨1, "0000000000000000", 10⟩, ⟨2, "0000000000000000", 20⟩] ∧
    (capture_screenshot ⟨true, 5, 100⟩ 20
        ⟨[⟨1, "0000000000000000", 10⟩], 2, some "0000000000000000", 1, false⟩
        "0000000000000000").2 = .discarded := by
  refine ⟨by decide, by decide, by decide⟩

/-- C2 (amended): `capture_now` runs one capture+persist cycle synchronously
and returns the id of the newly persisted row, regardless of whether the
scheduler is running — but it applies no duplicate check: it persists
unconditionally (appending exactly one row, for any hash whatsoever), and
it leaves the capture counter and the last-hash cache untouched. -/
theorem C2_capture_now_persists_unconditionally (s : CaptureState) (now : ℕ)
    (image_hash : String) :
    (capture_now s now image_hash).2 = some s.next_id ∧
    (capture_now s now image_hash).1.db = s.db ++ [⟨s.next_id, image_hash, now⟩] ∧
    (capture_now s now image_hash).1.screenshots_captured = s.screenshots_captured ∧
    (capture_now s now image_hash).1.last_hash = s.last_hash ∧
    (∀ b, (capture_now { s with is_running := b } now image_hash).2 =
        (capture_now s now image_hash).2) := by
  refine ⟨rfl, rfl, rfl, rfl, fun b => rfl⟩

/-- C7: when the stored count exceeds the cap, retention cleanup deletes
exactly `count - max` rows, leaves exactly `max` rows, and the deleted rows
are precisely the oldest by timestamp: every surviving row is strictly newer
than every deleted row (ids and timestamps are assumed pairwise distinct, as
SQLite's autoincrement primary key and microsecond capture timestamps
make them). -/
theorem C7_retention_keeps_newest (max_count : ℕ) (db : List Row)
    (hids : (db.map Row.id).Nodup)
    (hts : (db.map Row.timestamp).Nodup)
    (hover : max_count < db.length) :
    (cleanup_old_screenshots max_count db).1 = db.length - max_count ∧
    (cleanup_old_screenshots max_count db).2.length = max_count ∧
    (∀ r ∈ (cleanup_old_screenshots max_count db).2, ∀ d ∈ db,
        d ∉ (cleanup_old_screenshots max_count db).2 →
        d.timestamp < r.timestamp) := by
  have hperm : List.Perm (sortDesc (fun r => r.timestamp) db) db :=
    sortDesc_perm _ db
  have hlen : (sortDesc (fun r => r.timestamp) db).length = db.length :=
    sortDesc_length _ db
  have hpw : (sortDesc (fun r => r.timestamp) db).Pairwise
      (fun a b => b.timestamp ≤ a.timestamp) := sortDesc_pairwise _ db
  simp only [cleanup_old_screenshots]
  set sorted := sortDesc (fun r => r.timestamp) db with hsorted_def
  set ids := (sorted.drop max_count).map Row.id with hids_def
  have hidnodup : (sorted.map Row.id).Nodup := ((hperm.map Row.id).nodup_iff).2 hids
  have htsnodup : (sorted.map Row.timestamp).Nodup :=
    ((hperm.map Row.timestamp).nodup_iff).2 hts
  have hmapsplit : ∀ (f : Row → ℕ),
      (sorted.take max_count).map f ++ (sorted.drop max_count).map f =
        sorted.map f := by
    intro f; rw [← List.map_append, List.take_append_drop]
  have hiddisj : List.Disjoint ((sorted.take max_count).map Row.id)
      ((sorted.drop max_count).map Row.id) := by
    have h := hidnodup
    rw [← hmapsplit Row.id] at h
    exact (List.nodup_append.1 h).2.2
  have htsdisj : List.Disjoint ((sorted.take max_count).map Row.timestamp)
      ((sorted.drop max_count).map Row.timestamp) := by
    have h := htsnodup
    rw [← hmapsplit Row.timestamp] at h
    exact (List.nodup_append.1 h).2.2
  have hkeep : ∀ k ∈ sorted.take max_count, k.id ∉ ids := by
    intro k hk hmem
    exact hiddisj (List.mem_map_of_mem Row.id hk) hmem
  have hfilterperm : List.Perm (db.filter (fun r => r.id ∉ ids))
      (sorted.take max_count) := by
    have h1 : List.Perm (sorted.filter (fun r => r.id ∉ ids))
        (db.filter (fun r => r.id ∉ ids)) := hperm.filter _
    have h2 : sorted.filter (fun r => r.id ∉ ids) =
        (sorted.take max_count).filter (fun r => r.id ∉ ids) ++
          (sorted.drop max_count).filter (fun r => r.id ∉ ids) := by
      rw [← List.filter_append, List.take_append_drop]
    have h3 : (sorted.take max_count).filter (fun r => r.id ∉ ids) =
        sorted.take max_count :=
      List.filter_eq_self.2 (fun a ha => by simpa using hkeep a ha)
    have h4 : (sorted.drop max_count).filter (fun r => r.id ∉ ids) = [] := by
      rw [List.filter_eq_nil_iff]
      intro a ha
      have hin : a.id ∈ ids := List.mem_map_of_mem Row.id ha
      simp [hin]
    have h5 : sorted.filter (fun r => r.id ∉ ids) = sorted.take max_count := by
      rw [h2, h3, h4, List.append_nil]
    rw [h5] at h1
    exact h1.symm
  refine ⟨?_, ?_, ?_⟩
  · simp [hids_def, hlen]
  · rw [hfilterperm.length_eq, List.length_take, hlen,
      min_eq_left (le_of_lt hover)]
  · intro r hr d hd hdnot
    have hrk : r ∈ sorted.take max_count := hfilterperm.mem_iff.1 hr
    have hdd : d ∈ sorted.drop max_count := by
      have hds : d ∈ sorted := hperm.mem_iff.2 hd
      have hsp : d ∈ sorted.take max_count ++ sorted.drop max_count := by
        rw [List.take_append_drop]; exact hds
      rcases List.mem_append.1 hsp with h | h
      · exact absurd (hfilterperm.mem_iff.2 h) hdnot
      · exact h
    have hsplitpw : (sorted.take max_count ++ sorted.drop max_count).Pairwise
        (fun a b => b.timestamp ≤ a.timestamp) := by
      rw [List.take_append_drop]; exact hpw
    have hle : d.timestamp ≤ r.timestamp :=
      (List.pairwise_append.1 hsplitpw).2.2 r hrk d hdd
    have hne : d.timestamp ≠ r.timestamp := by
      intro he
      exact htsdisj (List.mem_map_of_mem Row.timestamp hrk)
        (he ▸ List.mem_map_of_mem Row.timestamp hdd)
    exact lt_of_le_of_ne hle hne

/-- C7 witness: a two-row store with cap 1 deletes exactly one row and keeps
exactly one. -/
theorem C7_witness :
    (cleanup_old_screenshots 1 [⟨1, "a", 10⟩, ⟨2, "b", 20⟩]).1 = 1 ∧
    (cleanup_old_screenshots 1 [⟨1, "a", 10⟩, ⟨2, "b", 20⟩]).2.length = 1 := by
  have h := C7_retention_keeps_newest 1 [⟨1, "a", 10⟩, ⟨2, "b", 20⟩]
    (by decide) (by decide) (by decide)
  exact ⟨h.1, h.2.1⟩

/-- C3 counterexample: the claim quantifies over *every* top-K limit, but
`top_k or settings.vector_db.max_results` treats `K = 0` as absent (Python
falsiness) and replaces it by the default (10): with one candidate at
distance 0 and minimum similarity 1/2, the result has length 1, not ≤ 0. -/
theorem C3_counterexample :
    (search_similar 10 (7/10) [(1, 0)] (some 0) (some (1/2))).length = 1 ∧
    ¬((search_similar 10 (7/10) [(1, 0)] (some 0) (some (1/2))).length ≤ 0) := by
  have h : search_similar 10 (7/10) [(1, 0)] (some 0) (some (1/2)) = [(1, 1)] := by
    norm_num [search_similar, pyOrNat, pyOrRat, distToSim, sortDesc, insertDesc,
      List.filter]
  rw [h]
  simp

/-- C3 (amended, requested K ≥ 1): the similarity search scores each raw
candidate distance `d` as `1/(1+d)` — positive, at most 1, and strictly
decreasing in `d` — and returns only items whose score reaches the requested
minimum, sorted descending by score, at most K of them.  (A requested K of 0
or a requested minimum of 0 are Python-falsy and replaced by the configured
defaults; the returned scores still satisfy the stated bounds.) -/
theorem C3_search_properties (max_results_default : ℕ) (threshold_default : ℚ)
    (candidates : List (ℕ × ℚ)) (k : ℕ) (m : ℚ)
    (hk : 0 < k)
    (hd : ∀ c ∈ candidates, 0 ≤ c.2) :
    (search_similar max_results_default threshold_default candidates
        (some k) (some m)).length ≤ k ∧
    (search_similar max_results_default threshold_default candidates
        (some k) (some m)).Pairwise (fun a b => b.2 ≤ a.2) ∧
    (∀ x ∈ search_similar max_results_default threshold_default candidates
        (some k) (some m),
      m ≤ x.2 ∧ 0 < x.2 ∧ x.2 ≤ 1 ∧ ∃ c ∈ candidates, x = (c.1, distToSim c.2)) ∧
    (∀ d1 d2 : ℚ, 0 ≤ d1 → d1 < d2 → distToSim d2 < distToSim d1) := by
  have hk0 : k ≠ 0 := Nat.pos_iff_ne_zero.1 hk
  have hkk : pyOrNat (some k) max_results_default = k := by simp [pyOrNat, hk0]
  simp only [search_similar, hkk]
  refine ⟨?_, ?_, ?_, ?_⟩
  · rw [List.length_take]
    exact min_le_left _ _
  · exact List.Pairwise.sublist (List.take_sublist _ _) (sortDesc_pairwise _ _)
  · intro x hx
    have hx1 : x ∈ sortDesc Prod.snd
        ((candidates.map (fun c => (c.1, distToSim c.2))).filter
          (fun x => decide (pyOrRat (some m) threshold_default ≤ x.2))) :=
      List.take_subset _ _ hx
    have hx2 := (sortDesc_mem _ _ _).1 hx1
    have hx3 := List.mem_filter.1 hx2
    obtain ⟨c, hc, hcx⟩ := List.mem_map.1 hx3.1
    have hxeq : x = (c.1, distToSim c.2) := hcx.symm
    have hd2 : (0:ℚ) ≤ c.2 := hd c hc
    have hpos : 0 < distToSim c.2 := by
      unfold distToSim
      positivity
    have hone : distToSim c.2 ≤ 1 := by
      unfold distToSim
      rw [div_le_one (by linarith)]
      linarith
    have hx2pos : 0 < x.2 := by rw [hxeq]; exact hpos
    have hx2one : x.2 ≤ 1 := by rw [hxeq]; exact hone
    refine ⟨?_, hx2pos, hx2one, c, hc, hxeq⟩
    have hfilt : pyOrRat (some m) threshold_default ≤ x.2 := by
      have := hx3.2
      simpa using this
    by_cases hm0 : m = 0
    · subst hm0; exact le_of_lt hx2pos
    · simpa [pyOrRat, hm0] using hfilt
  · intro d1 d2 h0 hlt
    unfold distToSim
    exact one_div_lt_one_div_of_lt (by linarith) (by linarith)

/-- C3 witness: two candidates at distances 0 and 3, K = 1, minimum 1/2 —
the result has at most one entry and is sorted descending. -/
theorem C3_witness :
    (search_similar 10 (7/10) [(1, 0), (2, 3)] (some 1) (some (1/2))).length ≤ 1 ∧
    (search_similar 10 (7/10) [(1, 0), (2, 3)] (some 1)
        (some (1/2))).Pairwise (fun a b => b.2 ≤ a.2) := by
  have h := C3_search_properties 10 (7/10) [(1, 0), (2, 3)] 1 (1/2)
    (by norm_num) (by intro c hc; fin_cases hc <;> norm_num)
  exact ⟨h.1, h.2.1⟩

/-! Helper lemmas relating `List.enumFrom` bookkeeping in
`generate_embeddings_batch` to plain filtering of the text list. -/

theorem enumFrom_filter_map_snd {α : Type} (q : α → Bool) (l : List α) :
    ∀ n : ℕ, ((List.enumFrom n l).filter (fun p => q p.2)).map Prod.snd
      = l.filter q := by
  induction l with
  | nil => intro n; simp
  | cons x xs ih =>
      intro n
      by_cases hq : q x <;> simp [List.enumFrom, List.filter, hq, ih (n + 1)]

theorem mem_enumFrom_filter_fst {α : Type} (q : α → Bool) (dflt : α) :
    ∀ (l : List α) (n i : ℕ), i < l.length → q (l.getD i dflt) = true →
      (n + i) ∈ ((List.enumFrom n l).filter (fun p => q p.2)).map Prod.fst := by
  intro l
  induction l with
  | nil => intro n i hi _; simp at hi
  | cons x xs ih =>
      intro n i hi hq
      cases i with
      | zero =>
          have hqx : q x = true := by simpa using hq
          simp [List.enumFrom, List.filter, hqx]
      | succ j =>
          have hj : j < xs.length := by simpa using hi
          have hqj : q (xs.getD j dflt) = true := by simpa using hq
          have hmem := ih (n + 1) j hj hqj
          have harith : n + (j + 1) = (n + 1) + j := by omega
          rw [harith]
          by_cases hqx : q x = true <;>
            simp [List.enumFrom, List.filter, hqx] <;>
            [exact Or.inr (by simpa using hmem); simpa using hmem]

/-- Characterization of `generate_embeddings_batch` (available backend): the
backend is invoked on exactly the non-blank texts; blanks' indices form the
failure list, except that a backend failure fails every index. -/
theorem generate_embeddings_batch_eq {α : Type}
    (encode : List String → Option (List α)) (texts : List String) :
    generate_embeddings_batch true encode texts =
      if texts.filter (fun t => !isBlank t) = [] then
        ([], (texts.enum.filter (fun p => isBlank p.2)).map Prod.fst)
      else
        match encode (texts.filter (fun t => !isBlank t)) with
        | some embs => (embs, (texts.enum.filter (fun p => isBlank p.2)).map Prod.fst)
        | none => ([], List.range texts.length) := by
  have hvalid : ((texts.enum.filter (fun p => !isBlank p.2)).map Prod.snd)
      = texts.filter (fun t => !isBlank t) := by
    simpa [List.enum] using enumFrom_filter_map_snd (fun t => !isBlank t) texts 0
  simp only [generate_embeddings_batch, hvalid, Bool.not_true, Bool.false_eq_true,
    if_false, List.isEmpty_iff]

/-- C6: batch embedding marks every empty or whitespace-only text as failed
and sends the backend exactly the non-blank texts (two encoders agreeing on
the non-blank sublist produce identical results); if the backend call
throws, every index of the input list is failed and no vectors are
returned. -/
theorem C6_batch_failure_semantics {α : Type}
    (encode : List String → Option (List α)) (texts : List String) :
    (∀ i, i < texts.length → isBlank (texts.getD i "") = true →
        i ∈ (generate_embeddings_batch true encode texts).2) ∧
    (encode (texts.filter (fun t => !isBlank t)) = none →
        generate_embeddings_batch true encode texts = ([], List.range texts.length)) ∧
    (∀ encode₂ : List String → Option (List α),
        encode (texts.filter (fun t => !isBlank t))
          = encode₂ (texts.filter (fun t => !isBlank t)) →
        generate_embeddings_batch true encode texts
          = generate_embeddings_batch true encode₂ texts) := by
  refine ⟨?_, ?_, ?_⟩
  · intro i hi hbl
    have hmem : i ∈ ((texts.enum.filter (fun p => isBlank p.2)).map Prod.fst) := by
      simpa [List.enum] using
        mem_enumFrom_filter_fst (fun t => isBlank t) "" texts 0 i hi hbl
    rw [generate_embeddings_batch_eq]
    by_cases hemp : texts.filter (fun t => !isBlank t) = []
    · simpa [hemp] using hmem
    · cases henc : encode (texts.filter (fun t => !isBlank t)) with
      | none => simp [hemp, henc, List.mem_range, hi]
      | some embs => simpa [hemp, henc] using hmem
  · intro henc
    rw [generate_embeddings_batch_eq]
    by_cases hemp : texts.filter (fun t => !isBlank t) = []
    · -- every text is blank: the backend is never called, and the blank
      -- indices are all of `range texts.length`
      have hall : ∀ x ∈ texts.enum, isBlank x.2 = true := by
        rw [List.forall_mem_enum]
        intro i hi
        have hx2 : texts[i] ∈ texts := List.getElem_mem hi
        have := List.filter_eq_nil_iff.1 hemp texts[i] hx2
        simpa using this
      have hfa : texts.enum.filter (fun p => isBlank p.2) = texts.enum :=
        List.filter_eq_self.2 hall
      simp [hemp, hfa]
    · simp [hemp, henc]
  · intro encode₂ hagree
    rw [generate_embeddings_batch_eq, generate_embeddings_batch_eq, hagree]

/-- C6 witness: five texts with only index 2 empty yield 4 vectors and
failed indices `[2]`; index 2's failure also follows from the claim
theorem. -/
theorem C6_witness :
    generate_embeddings_batch true
        (fun ts => some (List.replicate ts.length (0 : ℕ)))
        ["a", "b", "", "d", "e"] = ([0, 0, 0, 0], [2]) ∧
    2 ∈ (generate_embeddings_batch true
        (fun ts => some (List.replicate ts.length (0 : ℕ)))
        ["a", "b", "", "d", "e"]).2 := by
  refine ⟨by decide, ?_⟩
  exact (C6_batch_failure_semantics
    (fun ts => some (List.replicate ts.length (0 : ℕ)))
    ["a", "b", "", "d", "e"]).1 2 (by decide) (by decide)

/-- C9 counterexample: `"read youtube"` contains the reading keyword
`"read"` and the video keyword `"youtube"` (and no coding keyword), yet is
classified `"video"`, not `"reading"`: in the code the video branch is
checked *before* the reading branch. -/
theorem C9_counterexample :
    classify_activity_type "read youtube" = "video" ∧
    classify_activity_type "read youtube" ≠ "reading" ∧
    readingKeywords.any (fun kw => strContains (toLowerStr "read youtube") kw) = true ∧
    videoKeywords.any (fun kw => strContains (toLowerStr "read youtube") kw) = true ∧
    codingKeywords.any (fun kw => strContains (toLowerStr "read youtube") kw) = false := by
  refine ⟨by decide, by decide, by decide, by decide, by decide⟩

/-- C9 (amended): activity-type classification is a fixed-priority
first-match-wins keyword scan in the order coding, **video, reading**,
browsing, communication, with general as the no-match (or empty-description)
fallback — so a description containing both a reading keyword and a video
keyword (and no coding keyword) is classified video. -/
theorem C9_fixed_priority (d : String) (hne : d ≠ "") :
    (classify_activity_type "" = "general") ∧
    (codingKeywords.any (fun kw => strContains (toLowerStr d) kw) = true →
      classify_activity_type d = "coding") ∧
    (codingKeywords.any (fun kw => strContains (toLowerStr d) kw) = false →
      videoKeywords.any (fun kw => strContains (toLowerStr d) kw) = true →
      classify_activity_type d = "video") ∧
    (codingKeywords.any (fun kw => strContains (toLowerStr d) kw) = false →
      videoKeywords.any (fun kw => strContains (toLowerStr d) kw) = false →
      readingKeywords.any (fun kw => strContains (toLowerStr d) kw) = true →
      classify_activity_type d = "reading") ∧
    (codingKeywords.any (fun kw => strContains (toLowerStr d) kw) = false →
      videoKeywords.any (fun kw => strContains (toLowerStr d) kw) = false →
      readingKeywords.any (fun kw => strContains (toLowerStr d) kw) = false →
      browsingKeywords.any (fun kw => strContains (toLowerStr d) kw) = true →
      classify_activity_type d = "browsing") ∧
    (codingKeywords.any (fun kw => strContains (toLowerStr d) kw) = false →
      videoKeywords.any (fun kw => strContains (toLowerStr d) kw) = false →
      readingKeywords.any (fun kw => strContains (toLowerStr d) kw) = false →
      browsingKeywords.any (fun kw => strContains (toLowerStr d) kw) = false →
      communicationKeywords.any (fun kw => strContains (toLowerStr d) kw) = true →
      classify_activity_type d = "communication") ∧
    (codingKeywords.any (fun kw => strContains (toLowerStr d) kw) = false →
      videoKeywords.any (fun kw => strContains (toLowerStr d) kw) = false →
      readingKeywords.any (fun kw => strContains (toLowerStr d) kw) = false →
      browsingKeywords.any (fun kw => strContains (toLowerStr d) kw) = false →
      communicationKeywords.any (fun kw => strContains (toLowerStr d) kw) = false →
      classify_activity_type d = "general") := by
  refine ⟨by decide, ?_, ?_, ?_, ?_, ?_, ?_⟩
  · intro h1
    simp [classify_activity_type, hne, h1]
  · intro h1 h2
    simp [classify_activity_type, hne, h1, h2]
  · intro h1 h2 h3
    simp [classify_activity_type, hne, h1, h2, h3]
  · intro h1 h2 h3 h4
    simp [classify_activity_type, hne, h1, h2, h3, h4]
  · intro h1 h2 h3 h4 h5
    simp [classify_activity_type, hne, h1, h2, h3, h4, h5]
  · intro h1 h2 h3 h4 h5
    simp [classify_activity_type, hne, h1, h2, h3, h4, h5]

/-- C9 witness: the video-before-reading clause applied to
`"read youtube"`. -/
theorem C9_witness : classify_activity_type "read youtube" = "video" :=
  (C9_fixed_priority "read youtube" (by decide)).2.2.1 (by decide) (by decide)

/-! Concrete norm computations shared by the cosine-similarity claims. -/

theorem sqrt_twentyfive : Real.sqrt 25 = 5 := by
  rw [show (25 : ℝ) = 5 ^ 2 by norm_num]
  exact Real.sqrt_sq (by norm_num)

theorem norm2_three_four : norm2 [(3 : ℝ), 4] = 5 := by
  have hd : dotp [(3 : ℝ), 4] [3, 4] = 25 := by norm_num [dotp]
  rw [norm2, hd, sqrt_twentyfive]

theorem norm2_five_zero : norm2 [(5 : ℝ), 0] = 5 := by
  have hd : dotp [(5 : ℝ), 0] [5, 0] = 25 := by norm_num [dotp]
  rw [norm2, hd, sqrt_twentyfive]

theorem cosine_similarity_self_34 : cosine_similarity [(3 : ℝ), 4] [3, 4] = 1 := by
  have hd : dotp [(3 : ℝ), 4] [3, 4] = 25 := by norm_num [dotp]
  norm_num [cosine_similarity, norm2_three_four, hd]

/-- C4 counterexample: for embeddings `[3,4]` and `[5,0]` the true cosine is
`3/5`; the matcher's per-task similarity is the *clamped* cosine `3/5`, not
the affine `(cos+1)/2 = 4/5` the claim states. -/
theorem C4_counterexample :
    cosine_similarity [(3 : ℝ), 4] [5, 0] = 3 / 5 ∧
    (specTrueCosine [(3 : ℝ), 4] [5, 0] + 1) / 2 = 4 / 5 ∧
    cosine_similarity [(3 : ℝ), 4] [5, 0] ≠
      (specTrueCosine [(3 : ℝ), 4] [5, 0] + 1) / 2 := by
  have hd : dotp [(3 : ℝ), 4] [5, 0] = 15 := by norm_num [dotp]
  have h1 : cosine_similarity [(3 : ℝ), 4] [5, 0] = 3 / 5 := by
    norm_num [cosine_similarity, norm2_three_four, norm2_five_zero, hd]
  have h2 : (specTrueCosine [(3 : ℝ), 4] [5, 0] + 1) / 2 = 4 / 5 := by
    norm_num [specTrueCosine, norm2_three_four, norm2_five_zero, hd]
  refine ⟨h1, h2, ?_⟩
  rw [h1, h2]
  norm_num

/-- C4 (amended): for embedding vectors of equal dimension with nonzero
norms, the activity matcher's per-task similarity equals true cosine
similarity *clamped* into `[0,1]` via `max(0, min(1, cos))` (so negative
cosines collapse to 0), while the affine transform `(cos+1)/2` is what the
embedding service's `compute_similarity` — not the matcher — applies. -/
theorem C4_matcher_clamps_cosine (v w : List ℝ)
    (hlen : v.length = w.length) (hv : norm2 v ≠ 0) (hw : norm2 w ≠ 0) :
    cosine_similarity v w = max 0 (min 1 (specTrueCosine v w)) ∧
    compute_similarity v w = (specTrueCosine v w + 1) / 2 := by
  constructor <;>
    simp [cosine_similarity, compute_similarity, specTrueCosine, hlen, hv, hw]

/-- C4 witness: the amended relation at the concrete embeddings `[3,4]`,
`[5,0]`. -/
theorem C4_witness :
    cosine_similarity [(3 : ℝ), 4] [5, 0] =
      max 0 (min 1 (specTrueCosine [(3 : ℝ), 4] [5, 0])) ∧
    compute_similarity [(3 : ℝ), 4] [5, 0] =
      (specTrueCosine [(3 : ℝ), 4] [5, 0] + 1) / 2 :=
  C4_matcher_clamps_cosine [(3 : ℝ), 4] [5, 0] rfl
    (by rw [norm2_three_four]; norm_num)
    (by rw [norm2_five_zero]; norm_num)

/-- Inversion of `match_one`: a produced match carries the task's id, the
method `"semantic"`, and as confidence the computed similarity, which
reached the threshold. -/
theorem match_one_eq_some {threshold : ℝ} {emb : List ℝ} {todo : Todo}
    {m : TodoMatch} (h : match_one threshold emb todo = some m) :
    m.todo_id = todo.id ∧ m.method = "semantic" ∧
    ∃ e, todo.embedding = some e ∧ m.confidence = cosine_similarity emb e ∧
      threshold ≤ cosine_similarity emb e := by
  simp only [match_one] at h
  split at h
  · cases h
  · rename_i e' heq
    by_cases hθ : threshold ≤ cosine_similarity emb e'
    · rw [if_pos hθ] at h
      have hm := Option.some.inj h
      subst hm
      exact ⟨rfl, rfl, e', heq, rfl, hθ⟩
    · rw [if_neg hθ] at h
      cases h

theorem countP_match_zero (threshold : ℝ) (emb : List ℝ) (i : ℕ) :
    ∀ l : List Todo, i ∉ l.map Todo.id →
      (l.filterMap (match_one threshold emb)).countP
        (fun m => m.todo_id == i) = 0 := by
  intro l
  induction l with
  | nil => intro _; simp
  | cons hd tl ih =>
      intro hni
      have hhd : hd.id ≠ i := by
        intro h
        exact hni (by simp [h])
      have htl : i ∉ tl.map Todo.id := by
        intro h
        exact hni (by simp [h])
      cases hm : match_one threshold emb hd with
      | none => simp [List.filterMap_cons, hm, ih htl]
      | some m =>
          have hmid : m.todo_id = hd.id := (match_one_eq_some hm).1
          simp [List.filterMap_cons, hm, List.countP_cons, hmid, hhd, ih htl]

theorem countP_match_of_mem (threshold : ℝ) (emb : List ℝ) (t : Todo)
    (e : List ℝ) (he : t.embedding = some e)
    (hθ : threshold ≤ cosine_similarity emb e) :
    ∀ l : List Todo, (l.map Todo.id).Nodup → t ∈ l →
      (l.filterMap (match_one threshold emb)).countP
        (fun m => m.todo_id == t.id) = 1 := by
  intro l
  induction l with
  | nil => intro _ ht; cases ht
  | cons hd tl ih =>
      intro hnodup ht
      have hnd1 : hd.id ∉ tl.map Todo.id := by
        have h := hnodup
        simp only [List.map_cons, List.nodup_cons] at h
        exact h.1
      have hnd2 : (tl.map Todo.id).Nodup := by
        have h := hnodup
        simp only [List.map_cons, List.nodup_cons] at h
        exact h.2
      rcases List.mem_cons.1 ht with rfl | htl
      · have hm : match_one threshold emb t =
            some ⟨t.id, cosine_similarity emb e, "semantic"⟩ := by
          simp [match_one, he, hθ]
        simp [List.filterMap_cons, hm, List.countP_cons,
          countP_match_zero threshold emb t.id tl hnd1]
      · have hne : hd.id ≠ t.id := by
          intro h
          exact hnd1 (h ▸ List.mem_map_of_mem Todo.id htl)
        cases hm : match_one threshold emb hd with
        | none => simp [List.filterMap_cons, hm, ih hnd2 htl]
        | some m =>
            have hmid : m.todo_id = hd.id := (match_one_eq_some hm).1
            simp [List.filterMap_cons, hm, List.countP_cons, hmid, hne,
              ih hnd2 htl]

/-- C5: a task whose similarity is below the threshold never appears in the
match list; a task at or above the threshold appears exactly once, with
confidence = the computed similarity and method `"semantic"` (one activity
link is then created per match). -/
theorem C5_threshold_gates_links (threshold : ℝ) (emb : List ℝ)
    (todos : List Todo) (hnodup : (todos.map Todo.id).Nodup)
    (t : Todo) (ht : t ∈ todos) (e : List ℝ) (he : t.embedding = some e) :
    (cosine_similarity emb e < threshold →
      ∀ m ∈ match_screenshot_to_todos threshold emb todos, m.todo_id ≠ t.id) ∧
    (threshold ≤ cosine_similarity emb e →
      (match_screenshot_to_todos threshold emb todos).countP
          (fun m => m.todo_id == t.id) = 1 ∧
      (∀ m ∈ match_screenshot_to_todos threshold emb todos, m.todo_id = t.id →
        m.confidence = cosine_similarity emb e ∧ m.method = "semantic")) := by
  have hperm : List.Perm (match_screenshot_to_todos threshold emb todos)
      (todos.filterMap (match_one threshold emb)) :=
    sortDesc_perm _ _
  have hdecomp : ∀ m ∈ match_screenshot_to_todos threshold emb todos,
      m.todo_id = t.id →
      m.confidence = cosine_similarity emb e ∧ m.method = "semantic" ∧
        threshold ≤ cosine_similarity emb e := by
    intro m hm hmid
    obtain ⟨todo, htodo, hmt⟩ := List.mem_filterMap.1 (hperm.mem_iff.1 hm)
    obtain ⟨hid, hmeth, e', he', hconf, hθ'⟩ := match_one_eq_some hmt
    have hteq : todo = t :=
      List.inj_on_of_nodup_map hnodup htodo ht (hid ▸ hmid)
    subst hteq
    have hee : e' = e := by
      rw [he] at he'
      exact (Option.some.inj he').symm
    subst hee
    exact ⟨hconf, hmeth, hθ'⟩
  constructor
  · intro hlt m hm hmid
    have h := hdecomp m hm hmid
    exact absurd h.2.2 (not_le.2 hlt)
  · intro hθ
    refine ⟨?_, fun m hm hmid => ⟨(hdecomp m hm hmid).1, (hdecomp m hm hmid).2.1⟩⟩
    rw [hperm.countP_eq]
    exact countP_match_of_mem threshold emb t e he hθ todos hnodup ht

/-- C5 witness: a task embedding identical to the capture embedding
(similarity 1) with threshold 7/10 yields exactly one match, and the match
list is exactly one entry with confidence 1 and method `"semantic"`. -/
theorem C5_witness :
    (match_screenshot_to_todos (7 / 10) [(3 : ℝ), 4] [⟨7, some [3, 4]⟩]).countP
        (fun m => m.todo_id == 7) = 1 ∧
    match_screenshot_to_todos (7 / 10) [(3 : ℝ), 4] [⟨7, some [3, 4]⟩]
      = [⟨7, 1, "semantic"⟩] := by
  constructor
  · exact ((C5_threshold_gates_links (7 / 10) [(3 : ℝ), 4] [⟨7, some [3, 4]⟩]
      (by simp) ⟨7, some [3, 4]⟩ (by simp) [3, 4] rfl).2
      (by rw [cosine_similarity_self_34]; norm_num)).1
  · have hm : match_one (7 / 10) [(3 : ℝ), 4] ⟨7, some [3, 4]⟩ =
        some ⟨7, 1, "semantic"⟩ := by
      simp [match_one, cosine_similarity_self_34]
      norm_num
    simp [match_screenshot_to_todos, List.filterMap, hm, sortDesc, insertDesc]

/-- C8 counterexample: two candidates with *equal* raw similarity 0.8 and
ages 509760 s (≈5.90 days — strictly older) and 440640 s (≈5.10 days); both
ages truncate to 5 whole days, so both adjusted scores are equal and the
stable sort keeps the strictly older candidate (id 1) ranked *above* the
newer one (id 2), contradicting "the strictly older one never ranks above
the newer one". -/
theorem C8_counterexample :
    (509760 : ℕ) > 440640 ∧
    (apply_relevance_decay 30
        [⟨1, 0.8, some 509760⟩, ⟨2, 0.8, some 440640⟩]).map
      SimilarShot.screenshot_id = [1, 2] := by
  refine ⟨by norm_num, ?_⟩
  have h5a : (509760 : ℕ) / 86400 = 5 := by norm_num
  have h5b : (440640 : ℕ) / 86400 = 5 := by norm_num
  simp [apply_relevance_decay, decay_shot, decay_factor, h5a, h5b,
    sortDesc, insertDesc]

/-- C8 (amended): relevance decay multiplies each candidate's raw
similarity by `exp(−age_days/decay_period_days)` — where `age_days` is the
age truncated to *whole days* — and re-sorts descending by adjusted score;
hence a candidate at least one whole day older than another with the same
positive raw similarity scores strictly lower and ranks strictly after it
(equal whole-day ages keep their input order), and a candidate whose
whole-day age equals the decay period gets adjusted score exactly
`raw · e⁻¹`. -/
theorem C8_relevance_decay (decay_days : ℕ) (hD : 0 < decay_days)
    (shots : List SimilarShot) :
    List.Perm (apply_relevance_decay decay_days shots)
      (shots.map (decay_shot decay_days)) ∧
    (apply_relevance_decay decay_days shots).Pairwise
      (fun a b => b.similarity ≤ a.similarity) ∧
    (∀ (raw : ℝ) (a1 a2 : ℕ), 0 < raw → a2 / 86400 < a1 / 86400 →
      raw * decay_factor decay_days a1 < raw * decay_factor decay_days a2) ∧
    (∀ x y : SimilarShot, x.similarity < y.similarity →
      ∀ i j : Fin (apply_relevance_decay decay_days shots).length,
        (apply_relevance_decay decay_days shots).get i = x →
        (apply_relevance_decay decay_days shots).get j = y →
        (j : ℕ) < (i : ℕ)) ∧
    (∀ (s : SimilarShot) (a : ℕ), s.age_seconds = some a →
      a / 86400 = decay_days →
      (decay_shot decay_days s).similarity = s.similarity * Real.exp (-1)) := by
  refine ⟨sortDesc_perm _ _, sortDesc_pairwise _ _, ?_, ?_, ?_⟩
  · intro raw a1 a2 hraw hage
    have hcast : ((a2 / 86400 : ℕ) : ℝ) < ((a1 / 86400 : ℕ) : ℝ) :=
      Nat.cast_lt.2 hage
    have hDpos : (0 : ℝ) < (decay_days : ℝ) := Nat.cast_pos.2 hD
    have hdiv : ((a2 / 86400 : ℕ) : ℝ) / (decay_days : ℝ) <
        ((a1 / 86400 : ℕ) : ℝ) / (decay_days : ℝ) :=
      div_lt_div_of_pos_right hcast hDpos
    have hexp : decay_factor decay_days a1 < decay_factor decay_days a2 := by
      unfold decay_factor
      exact Real.exp_lt_exp.2 (by linarith)
    exact mul_lt_mul_of_pos_left hexp hraw
  · intro x y hxy i j hix hjy
    have hpw : (apply_relevance_decay decay_days shots).Pairwise
        (fun a b => b.similarity ≤ a.similarity) :=
      sortDesc_pairwise SimilarShot.similarity
        (shots.map (decay_shot decay_days))
    rcases lt_trichotomy (j : ℕ) (i : ℕ) with h | h | h
    · exact h
    · exfalso
      have : i = j := Fin.ext h.symm
      rw [this, hjy] at hix
      subst hix
      exact lt_irrefl _ hxy
    · exfalso
      have hle := (List.pairwise_iff_get.1 hpw) i j (by exact h)
      rw [hix, hjy] at hle
      exact absurd hxy (not_lt.2 hle)
  · intro s a hs ha
    have hfac : decay_factor decay_days a = Real.exp (-1) := by
      unfold decay_factor
      rw [ha, div_self (Nat.cast_ne_zero.2 (Nat.pos_iff_ne_zero.1 hD))]
    simp [decay_shot, hs, hfac]

/-- C8 witness: the amended properties at decay period 30 and a singleton
candidate list. -/
theorem C8_witness :
    List.Perm (apply_relevance_decay 30 [⟨1, 0.8, some 0⟩])
      ([⟨1, 0.8, some 0⟩].map (decay_shot 30)) ∧
    (apply_relevance_decay 30 [⟨1, 0.8, some 0⟩]).Pairwise
      (fun a b => b.similarity ≤ a.similarity) :=
  ⟨(C8_relevance_decay 30 (by norm_num) [⟨1, 0.8, some 0⟩]).1,
   (C8_relevance_decay 30 (by norm_num) [⟨1, 0.8, some 0⟩]).2.1⟩

end MineContext
